import Mathlib

/-!
Shallow embedding of `syft/core/node/common/action/run_class_method_action.py`
(class `RunClassMethodAction`): the Action data structure, its wire mapping
(`_object2proto` / `_proto2object`), `intersect_keys`, `remap_input`, and
`execute_action` against the node's Object Store.

Modelling conventions:
- `UID`, `VerifyKey` and `Address` are opaque tokens, modelled as `Nat`.
- an Access Set (`read_permissions`) is a Python dict `VerifyKey -> UID`,
  modelled as an insertion-ordered association list.
- the Object Store is a dict `UID -> StorableObject`, modelled as an
  insertion-ordered association list; `get_object` is the non-raising lookup,
  `getItem` is `store[k]` (raises `KeyError` when absent, hence `Option` here
  with `none` turned into an error by the caller).
- the payload of a stored object is opaque to this core; it is modelled as
  `Nat`.  The invoked callable (`node.lib_ast(self.path)` plus the Plan /
  monkey-patch re-resolution branches of lines 141-174, which differ only in
  how the opaque result is produced) is modelled as one opaque function
  `invoke` from the optional receiver payload and the resolved positional and
  named payloads to the result payload.
- `upcast_args_and_kwargs` is an external shape-preserving normalization and
  is modelled as the identity on payloads.
- primitive wrapping and id-forcing (lines 176-195) act inside the opaque
  payload; in every branch the object finally stored carries the destination
  identifier `id_at_location`, which is what the wrap below records.
- `inherit_tags` is an external metadata hook with no effect on the modelled
  state.
- logging (`critical`, `warning`) is not modelled; `traceback_and_raise` and
  Python exceptions are modelled with `Except`.
- Python's `str.startswith` / `str.endswith` are modelled on the character
  sequence of the string, since the byte-level `String.startsWith` of Lean
  does not reduce in the kernel.
-/

namespace Syft

abbrev UID := Nat

abbrev VerifyKey := Nat

abbrev Address := Nat

/-- An Access Set: Python dict from principal key to request-id marker. -/
abbrev AccessSet := List (VerifyKey × UID)

/-- Payload of a stored object; opaque to this core. -/
abbrev Data := Nat

/-- A store entry: `StorableObject(id, data, read_permissions)`. -/
structure StorableObject where
  id : UID
  data : Data
  read_permissions : AccessSet
  deriving DecidableEq, Repr

/-- A pointer/reference argument: all this core reads from it is
`id_at_location`. -/
structure Pointer where
  id_at_location : UID
  deriving DecidableEq, Repr

/-- The Object Store: dict `UID -> StorableObject`. -/
abbrev Store := List (UID × StorableObject)

/-- Python `store.get_object(key=k)`: `None` when absent. -/
def Store.get_object (s : Store) (key : UID) : Option StorableObject :=
  match s with
  | [] => none
  | (k, v) :: rest => if k = key then some v else Store.get_object rest key

/-- Python `store[k]` lookup; `none` here stands for a raised `KeyError`. -/
def Store.getItem (s : Store) (key : UID) : Option StorableObject :=
  Store.get_object s key

/-- Python `store[k] = v`: upsert, replacing in place when the key exists. -/
def Store.set (s : Store) (key : UID) (v : StorableObject) : Store :=
  match s with
  | [] => [(key, v)]
  | (k, w) :: rest =>
      if k = key then (key, v) :: rest else (k, w) :: Store.set rest key v

/-- Membership of a key in a dict (Python `k in d` / `set` intersection
membership). -/
def AccessSet.hasKey (s : AccessSet) (k : VerifyKey) : Bool :=
  match s with
  | [] => false
  | (k1, _) :: rest => if k1 = k then true else AccessSet.hasKey rest k

/-- Value of a key in a dict (Python `d[k]`), `none` when absent. -/
def AccessSet.getVal (s : AccessSet) (k : VerifyKey) : Option UID :=
  match s with
  | [] => none
  | (k1, v) :: rest => if k1 = k then some v else AccessSet.getVal rest k

/-- Key list of a dict. -/
def AccessSet.keys (s : AccessSet) : List VerifyKey :=
  s.map Prod.fst

/-- Lines 71-81: `intersect_keys(left, right)` builds
`{k: left[k] for k in set(left.keys()).intersection(right.keys())}`:
the keys present on both sides, each with the LEFT operand's value.  (The
iteration order of a Python `set` is unspecified; the model keeps the left
operand's order, which has the same key set and the same value at every
key.) -/
def intersect_keys (left right : AccessSet) : AccessSet :=
  left.filter (fun p => right.hasKey p.1)

/-- The Action: fields set by `RunClassMethodAction.__init__` (lines 50-69).
`id` is the message id held by the base class (`self.id`): `msg_id` when one
was passed, a freshly generated one otherwise. -/
structure Action where
  path : String
  _self : Option Pointer
  args : List Pointer
  kwargs : List (String × Pointer)
  id_at_location : UID
  is_static : Bool
  address : Address
  id : UID
  deriving DecidableEq, Repr

/-- Lines 50-69: `__init__`.  `msg_id` is optional (auto-generated when
absent — `fresh_id` supplies the generated value); `is_static` defaults to
`False` at call sites that omit it. -/
def RunClassMethodAction.init (path : String) (_self : Option Pointer)
    (args : List Pointer) (kwargs : List (String × Pointer))
    (id_at_location : UID) (address : Address) (msg_id : Option UID)
    (is_static : Bool) (fresh_id : UID) : Action :=
  { path := path
    _self := _self
    args := args
    kwargs := kwargs
    id_at_location := id_at_location
    is_static := is_static
    address := address
    id := msg_id.getD fresh_id }

/-- The wire message `RunClassMethodAction_PB` (fields of lines 233-241).
Nested values are carried by an external serializer assumed faithful, so each
field holds the corresponding value itself.  Note there is no `is_static`
field. -/
structure RunClassMethodAction_PB where
  path : String
  _self : Option Pointer
  args : List Pointer
  kwargs : List (String × Pointer)
  id_at_location : UID
  address : Address
  msg_id : UID
  deriving DecidableEq, Repr

/-- Lines 217-241: `_object2proto`.  `msg_id` is serialized from `self.id`;
`is_static` is not serialized at all. -/
def _object2proto (a : Action) : RunClassMethodAction_PB :=
  { path := a.path
    _self := a._self
    args := a.args
    kwargs := a.kwargs
    id_at_location := a.id_at_location
    address := a.address
    msg_id := a.id }

/-- Lines 243-266: `_proto2object` calls `__init__` with every proto field
and without `is_static`, so `is_static` takes its default `False`; `msg_id`
is present, so the fresh-id source (last argument, arbitrarily 0) is
unused. -/
def _proto2object (proto : RunClassMethodAction_PB) : Action :=
  RunClassMethodAction.init proto.path proto._self proto.args proto.kwargs
    proto.id_at_location proto.address (some proto.msg_id) false 0

/-- Python `str.startswith` on the character sequences. -/
def listBeginsWith : List Char → List Char → Bool
  | _, [] => true
  | [], _ :: _ => false
  | c :: cs, d :: ds => if c = d then listBeginsWith cs ds else false

/-- Python `s.startswith(t)`. -/
def strStartsWith (s t : String) : Bool :=
  listBeginsWith s.data t.data

/-- Python `s.endswith(t)`. -/
def strEndsWith (s t : String) : Bool :=
  listBeginsWith s.data.reverse t.data.reverse

/-- Lines 90-100: the mutation-classification heuristic.
`mutating_internal` starts `False` and is set `True` by the tensor in-place
branch or by the non-tensor `__call__` branch. -/
def mutatingInternal (path : String) : Bool :=
  if strStartsWith path "torch.Tensor" && strEndsWith path "_"
      && !(strEndsWith path "__call__") then
    true
  else if !(strStartsWith path "torch.Tensor")
      && strEndsWith path "__call__" then
    true
  else
    false

/-- Errors surfaced by the modelled methods.  `keyError k` is the `KeyError`
of `store[k]` on an absent key; `attributeError` is the `AttributeError` of
reading `.id_at_location` on a `None` receiver reference. -/
inductive ExecError where
  | keyError (k : UID)
  | attributeError
  deriving DecidableEq, Repr

/-- Lines 116-124: the positional-argument loop.  Each `store[...]` lookup
may raise `KeyError`; the Access Set is folded with `intersect_keys` and the
resolved `StorableObject`s are collected in order (`tag_args`; the payloads
`resolved_args` are their `.data`). -/
def resolveArgObjs (store : Store) (perms : AccessSet) :
    List Pointer → Except ExecError (AccessSet × List StorableObject)
  | [] => Except.ok (perms, [])
  | arg :: rest =>
      match Store.getItem store arg.id_at_location with
      | none => Except.error (ExecError.keyError arg.id_at_location)
      | some r =>
          match resolveArgObjs store (intersect_keys perms r.read_permissions) rest with
          | Except.error e => Except.error e
          | Except.ok (out, os) => Except.ok (out, r :: os)

/-- Lines 126-134: the named-argument loop, over the kwargs in insertion
order. -/
def resolveKwargObjs (store : Store) (perms : AccessSet) :
    List (String × Pointer) →
      Except ExecError (AccessSet × List (String × StorableObject))
  | [] => Except.ok (perms, [])
  | (name, arg) :: rest =>
      match Store.getItem store arg.id_at_location with
      | none => Except.error (ExecError.keyError arg.id_at_location)
      | some r =>
          match resolveKwargObjs store (intersect_keys perms r.read_permissions) rest with
          | Except.error e => Except.error e
          | Except.ok (out, os) => Except.ok (out, (name, r) :: os)

/-- Seed Access Set of lines 112-114: the receiver's `read_permissions`, or
`{}` for a static call. -/
def seedPerms : Option (Pointer × StorableObject) → AccessSet
  | none => []
  | some (_, rs) => rs.read_permissions

/-- Lines 116-215 of `execute_action`, after the receiver has been resolved
(`resolved_self` pairs the receiver pointer with the fetched object; `none`
for a static call): resolve the arguments, invoke, propagate permissions onto
a mutated receiver (in Python the in-place `resolved_self.read_permissions`
assignment is visible through the store entry it aliases), wrap and commit
the result under `id_at_location`. -/
def execute_resolved
    (invoke : Option Data → List Data → List (String × Data) → Data)
    (a : Action) (store : Store)
    (resolved_self : Option (Pointer × StorableObject)) :
    Except ExecError Store :=
  let mutating_internal := mutatingInternal a.path
  match resolveArgObjs store (seedPerms resolved_self) a.args with
  | Except.error e => Except.error e
  | Except.ok (perms1, tag_args) =>
    match resolveKwargObjs store perms1 a.kwargs with
    | Except.error e => Except.error e
    | Except.ok (result_read_permissions, tag_kwargs) =>
      let resolved_args := tag_args.map (fun r => r.data)
      let resolved_kwargs := tag_kwargs.map (fun kv => (kv.1, kv.2.data))
      let result := invoke (resolved_self.map (fun sr => sr.2.data))
        resolved_args resolved_kwargs
      let store1 :=
        if mutating_internal then
          match resolved_self with
          | some (p, rs) =>
              Store.set store p.id_at_location
                { rs with read_permissions := result_read_permissions }
          | none => store
        else store
      let result_obj : StorableObject :=
        { id := a.id_at_location
          data := result
          read_permissions := result_read_permissions }
      Except.ok (Store.set store1 a.id_at_location result_obj)

/-- Lines 87-215: `execute_action`.  For a non-static call the receiver is
fetched with `get_object`; a missing receiver logs and returns with the store
untouched (`Except.ok store`), while a `None` receiver reference raises
`AttributeError` at `self._self.id_at_location`. -/
def execute_action
    (invoke : Option Data → List Data → List (String × Data) → Data)
    (a : Action) (store : Store) : Except ExecError Store :=
  if a.is_static then
    execute_resolved invoke a store none
  else
    match a._self with
    | none => Except.error ExecError.attributeError
    | some p =>
        match Store.get_object store p.id_at_location with
        | none => Except.ok store
        | some rs => execute_resolved invoke a store (some (p, rs))

/-- Lines 288-296: `remap_input`.  Reading `self._self.id_at_location` on a
`None` receiver raises `AttributeError`; otherwise either the receiver
reference is replaced, or the loop over `enumerate(self.args)` (which has no
`break`) replaces EVERY positional argument whose `id_at_location`
matches. -/
def remap_input (a : Action) (current_input new_input : Pointer) :
    Except ExecError Action :=
  match a._self with
  | none => Except.error ExecError.attributeError
  | some s =>
      if s.id_at_location = current_input.id_at_location then
        Except.ok { a with _self := some new_input }
      else
        let remapped := a.args.map (fun arg =>
          if arg.id_at_location = current_input.id_at_location then new_input
          else arg)
        Except.ok { a with args := remapped }

/-- Left-to-right fold of `intersect_keys` over a list of Access Sets,
exactly as §4.3 of the spec words it: the seed is the receiver's Access Set
(or the empty set when static), then each input's Access Set in order. -/
def foldedPermissions (seed : AccessSet) (inputs : List AccessSet) : AccessSet :=
  inputs.foldl intersect_keys seed

/-- The store after the in-place receiver mutation of lines 197-199: when a
receiver was resolved, its store entry now carries the folded Access Set;
a static call (no receiver) leaves the store as is.  This names the
mutating-branch store of `execute_resolved` for use in theorem statements. -/
def mutatedStore (store : Store) (rself : Option (Pointer × StorableObject))
    (F : AccessSet) : Store :=
  match rself with
  | some (p, rs) =>
      Store.set store p.id_at_location { rs with read_permissions := F }
  | none => store

/-- Receiver-resolution outcome: `some none` for a static call,
`some (some (p, rs))` when the receiver reference `p` is present and resolves
to `rs`, `none` when execution cannot reach argument resolution (missing or
`None` receiver). -/
def receiverResolved (a : Action) (store : Store) :
    Option (Option (Pointer × StorableObject)) :=
  if a.is_static then some none
  else
    match a._self with
    | none => none
    | some p =>
        match Store.get_object store p.id_at_location with
        | none => none
        | some rs => some (some (p, rs))

/-! Concrete instances used by witnesses and counterexamples. -/

/-- A concrete invocation behaviour: the callable returns payload 0. -/
def inv0 : Option Data → List Data → List (String × Data) → Data :=
  fun _ _ _ => 0

/-- A stored object readable by principal 1 only. -/
def objP1 : StorableObject :=
  { id := 1, data := 100, read_permissions := [(1, 10)] }

/-- A stored object readable by principals 1 and 2. -/
def objP1P2 : StorableObject :=
  { id := 2, data := 200, read_permissions := [(1, 11), (2, 12)] }

/-- A receiver object readable by principals 1 and 2. -/
def recvObj : StorableObject :=
  { id := 4, data := 40, read_permissions := [(1, 11), (2, 12)] }

/-- A static Action with two positional arguments. -/
def actC1 : Action :=
  { path := "syft.lib.f", _self := none, args := [⟨1⟩, ⟨2⟩], kwargs := [],
    id_at_location := 99, is_static := true, address := 0, id := 7 }

/-- The store holding `actC1`'s two arguments. -/
def storeC1 : Store := [(1, objP1), (2, objP1P2)]

/-- An Action whose first and third arguments carry the same identifier 7. -/
def actC3 : Action :=
  { path := "p", _self := some ⟨5⟩, args := [⟨7⟩, ⟨3⟩, ⟨7⟩], kwargs := [],
    id_at_location := 99, is_static := false, address := 0, id := 7 }

/-- A non-static Action whose receiver (id 0) and argument (id 1) are both
absent from the empty store. -/
def actC8 : Action :=
  { path := "syft.lib.f", _self := some ⟨0⟩, args := [⟨1⟩], kwargs := [],
    id_at_location := 99, is_static := false, address := 0, id := 7 }

/-- A non-static Action whose path classifies as a tensor in-place mutator. -/
def actC9 : Action :=
  { path := "torch.Tensor.add_", _self := some ⟨4⟩, args := [⟨1⟩], kwargs := [],
    id_at_location := 99, is_static := false, address := 0, id := 7 }

/-- The store holding `actC9`'s receiver and argument. -/
def storeC9 : Store := [(4, recvObj), (1, objP1)]

/-- A static Action with one argument (id 1) absent from the empty store. -/
def actC8w : Action :=
  { path := "syft.lib.f", _self := none, args := [⟨1⟩], kwargs := [],
    id_at_location := 99, is_static := true, address := 0, id := 7 }

/-! Basic lemmas about the Object Store. -/

theorem Store.get_object_set_self (s : Store) (k : UID) (v : StorableObject) :
    (Store.set s k v).get_object k = some v := by
  induction s with
  | nil => simp [Store.set, Store.get_object]
  | cons hd tl ih =>
      obtain ⟨k1, w⟩ := hd
      by_cases h : k1 = k
      · simp [Store.set, Store.get_object, h]
      · simp [Store.set, Store.get_object, h, ih]

theorem Store.get_object_set_other (s : Store) (k k2 : UID) (v : StorableObject)
    (h : k2 ≠ k) : (Store.set s k v).get_object k2 = s.get_object k2 := by
  induction s with
  | nil => simp [Store.set, Store.get_object, Ne.symm h]
  | cons hd tl ih =>
      obtain ⟨k1, w⟩ := hd
      by_cases h1 : k1 = k
      · subst h1
        simp [Store.set, Store.get_object, Ne.symm h]
      · simp [Store.set, Store.get_object, h1, ih]

/-! Basic lemmas about Access Sets and `intersect_keys`. -/

theorem AccessSet.keys_nil : AccessSet.keys [] = [] := rfl

theorem AccessSet.keys_cons (k1 : VerifyKey) (v : UID) (tl : AccessSet) :
    AccessSet.keys ((k1, v) :: tl) = k1 :: tl.keys := rfl

theorem AccessSet.hasKey_iff_mem_keys (s : AccessSet) (k : VerifyKey) :
    s.hasKey k = true ↔ k ∈ s.keys := by
  induction s with
  | nil => simp [AccessSet.hasKey, AccessSet.keys_nil]
  | cons hd tl ih =>
      obtain ⟨k1, v⟩ := hd
      by_cases h : k1 = k
      · subst h
        simp [AccessSet.hasKey, AccessSet.keys_cons]
      · simp [AccessSet.hasKey, AccessSet.keys_cons, h, Ne.symm h, ih]

theorem intersect_keys_cons (k1 : VerifyKey) (v : UID) (tl B : AccessSet) :
    intersect_keys ((k1, v) :: tl) B =
      if B.hasKey k1 then (k1, v) :: intersect_keys tl B
      else intersect_keys tl B := by
  simp [intersect_keys, List.filter_cons]

theorem hasKey_intersect (A B : AccessSet) (k : VerifyKey) :
    (intersect_keys A B).hasKey k = (A.hasKey k && B.hasKey k) := by
  induction A with
  | nil => simp [intersect_keys, AccessSet.hasKey]
  | cons hd tl ih =>
      obtain ⟨k1, v⟩ := hd
      rw [intersect_keys_cons]
      by_cases hB1 : B.hasKey k1
      · by_cases h : k1 = k
        · subst h
          simp [hB1, AccessSet.hasKey]
        · simp [hB1, AccessSet.hasKey, h, ih]
      · simp only [Bool.not_eq_true] at hB1
        by_cases h : k1 = k
        · subst h
          simp [hB1, AccessSet.hasKey, ih]
        · simp [hB1, AccessSet.hasKey, h, ih]

theorem getVal_intersect (A B : AccessSet) (k : VerifyKey)
    (hB : B.hasKey k = true) :
    (intersect_keys A B).getVal k = A.getVal k := by
  induction A with
  | nil => simp [intersect_keys, AccessSet.getVal]
  | cons hd tl ih =>
      obtain ⟨k1, v⟩ := hd
      rw [intersect_keys_cons]
      by_cases h : k1 = k
      · subst h
        simp [hB, AccessSet.getVal]
      · by_cases hB1 : B.hasKey k1
        · simp [hB1, AccessSet.getVal, h, ih]
        · simp only [Bool.not_eq_true] at hB1
          simp [hB1, AccessSet.getVal, h, ih]

theorem intersect_keys_nil_left (B : AccessSet) : intersect_keys [] B = [] := by
  simp [intersect_keys]

/-- Claim C5: the key set of `intersect_keys A B` is the intersection of the
key sets of `A` and `B`, and on every shared key the value is the LEFT
operand's value (the right operand's marker is discarded). -/
theorem c5_intersect_keys_spec (A B : AccessSet) :
    (∀ k, k ∈ (intersect_keys A B).keys ↔ k ∈ A.keys ∧ k ∈ B.keys) ∧
    (∀ k, k ∈ A.keys → k ∈ B.keys →
      (intersect_keys A B).getVal k = A.getVal k) := by
  refine ⟨fun k => ?_, fun k _ hkB => ?_⟩
  · rw [← AccessSet.hasKey_iff_mem_keys, ← AccessSet.hasKey_iff_mem_keys,
      ← AccessSet.hasKey_iff_mem_keys, hasKey_intersect]
    simp
  · exact getVal_intersect A B k ((AccessSet.hasKey_iff_mem_keys B k).mpr hkB)

/-- Witness for C5 on concrete Access Sets sharing exactly the key 2. -/
theorem c5_intersect_keys_spec_witness :
    (intersect_keys [(1, 10), (2, 20)] [(2, 5), (3, 6)]).getVal 2 =
      AccessSet.getVal [(1, 10), (2, 20)] 2 :=
  (c5_intersect_keys_spec [(1, 10), (2, 20)] [(2, 5), (3, 6)]).2 2
    (by decide) (by decide)

/-- Claim C6: the call is classified as mutating exactly when (a) the path
starts with "torch.Tensor" and ends with "_" but not with "__call__", or
(b) the path does not start with "torch.Tensor" and ends with "__call__". -/
theorem c6_mutating_classification (path : String) :
    mutatingInternal path = true ↔
      ((strStartsWith path "torch.Tensor" = true ∧
        strEndsWith path "_" = true ∧
        strEndsWith path "__call__" = false) ∨
       (strStartsWith path "torch.Tensor" = false ∧
        strEndsWith path "__call__" = true)) := by
  unfold mutatingInternal
  cases hs : strStartsWith path "torch.Tensor" <;>
    cases h1 : strEndsWith path "_" <;>
      cases h2 : strEndsWith path "__call__" <;> simp

/-- Claim C2 (amended): deserializing the serialization of an Action
reproduces every field except `is_static`, which `_object2proto` does not
serialize and `_proto2object` therefore leaves at its default `False`. -/
theorem c2_round_trip (a : Action) :
    _proto2object (_object2proto a) = { a with is_static := false } := rfl

/-- Claim C2 counterexample: an Action constructed with `is_static = true`
does not round-trip to an equal Action — the flag is lost on the wire. -/
theorem c2_counterexample :
    _proto2object (_object2proto
      { path := "p", _self := some ⟨5⟩, args := [], kwargs := [],
        id_at_location := 99, is_static := true, address := 3, id := 7 }) ≠
      { path := "p", _self := some ⟨5⟩, args := [], kwargs := [],
        id_at_location := 99, is_static := true, address := 3, id := 7 } := by
  intro h
  exact Bool.noConfusion (congrArg Action.is_static h)

/-- Claim C3 (amended): `remap_input(current, replacement)` replaces the
receiver reference when its identifier matches; otherwise it replaces EVERY
positional argument whose identifier matches (the loop has no break), leaving
all other fields unchanged, and is a no-op when nothing matches; argument
order and count are always preserved. -/
theorem c3_remap_input (a : Action) (s current_input new_input : Pointer)
    (hs : a._self = some s) :
    (s.id_at_location = current_input.id_at_location →
      remap_input a current_input new_input =
        Except.ok { a with _self := some new_input }) ∧
    (s.id_at_location ≠ current_input.id_at_location →
      remap_input a current_input new_input =
        Except.ok { a with args := a.args.map (fun arg =>
          if arg.id_at_location = current_input.id_at_location then new_input
          else arg) }) ∧
    (s.id_at_location ≠ current_input.id_at_location →
      (∀ arg ∈ a.args, arg.id_at_location ≠ current_input.id_at_location) →
      remap_input a current_input new_input = Except.ok a) := by
  have hmap : ∀ (l : List Pointer),
      (∀ arg ∈ l, arg.id_at_location ≠ current_input.id_at_location) →
      l.map (fun arg =>
        if arg.id_at_location = current_input.id_at_location then new_input
        else arg) = l := by
    intro l hl
    induction l with
    | nil => rfl
    | cons q qs ih =>
        have hq : q.id_at_location ≠ current_input.id_at_location :=
          hl q (by simp)
        simp [hq, ih (fun x hx => hl x (by simp [hx]))]
  refine ⟨fun h => ?_, fun h => ?_, fun h hnone => ?_⟩
  · simp [remap_input, hs, h]
  · simp [remap_input, hs, h]
  · simp [remap_input, hs, h, hmap a.args hnone]
    rw [← hs]

/-- Witness for C3 at a concrete Action whose receiver matches. -/
theorem c3_remap_input_witness :
    remap_input actC3 ⟨5⟩ ⟨9⟩ = Except.ok { actC3 with _self := some ⟨9⟩ } :=
  (c3_remap_input actC3 ⟨5⟩ ⟨5⟩ ⟨9⟩ rfl).1 rfl

/-- Claim C3 counterexample: with two arguments carrying the matched
identifier 7, BOTH are replaced; the claimed first-match-only result (third
argument still 7) is not what `remap_input` produces. -/
theorem c3_counterexample :
    remap_input actC3 ⟨7⟩ ⟨8⟩ =
      Except.ok { actC3 with args := [⟨8⟩, ⟨3⟩, ⟨8⟩] } ∧
    ({ actC3 with args := [⟨8⟩, ⟨3⟩, ⟨8⟩] } : Action) ≠
      { actC3 with args := [⟨8⟩, ⟨3⟩, ⟨7⟩] } := by
  refine ⟨rfl, ?_⟩
  decide

/-- Claim C7: a non-static Action whose receiver identifier is absent from
the Object Store makes `execute_action` log and return: the store is left
unchanged and no error reaches the caller. -/
theorem c7_missing_receiver
    (invoke : Option Data → List Data → List (String × Data) → Data)
    (a : Action) (store : Store) (p : Pointer)
    (hstatic : a.is_static = false) (hself : a._self = some p)
    (hmiss : Store.get_object store p.id_at_location = none) :
    execute_action invoke a store = Except.ok store := by
  simp [execute_action, hstatic, hself, hmiss]

/-- Witness for C7: the non-static Action `actC8` against the empty store. -/
theorem c7_missing_receiver_witness :
    execute_action inv0 actC8 [] = Except.ok [] :=
  c7_missing_receiver inv0 actC8 [] ⟨0⟩ rfl rfl rfl

/-- Claim C10: `remap_input` on an Action without a receiver reference stops
with an `AttributeError` while dereferencing `self._self.id_at_location`,
instead of scanning the arguments. -/
theorem c10_remap_missing_self (a : Action) (current_input new_input : Pointer)
    (hself : a._self = none) :
    remap_input a current_input new_input =
      Except.error ExecError.attributeError := by
  simp [remap_input, hself]

/-- Witness for C10: the static Action `actC1`, built without a receiver. -/
theorem c10_remap_missing_self_witness :
    remap_input actC1 ⟨1⟩ ⟨2⟩ = Except.error ExecError.attributeError :=
  c10_remap_missing_self actC1 ⟨1⟩ ⟨2⟩ rfl

/-! Lemmas about `execute_action`. -/

theorem execute_action_eq_resolved
    (invoke : Option Data → List Data → List (String × Data) → Data)
    (a : Action) (store : Store) (rself : Option (Pointer × StorableObject))
    (h : receiverResolved a store = some rself) :
    execute_action invoke a store = execute_resolved invoke a store rself := by
  by_cases hstat : a.is_static = true
  · simp only [receiverResolved, hstat, if_true] at h
    simp only [Option.some.injEq] at h
    subst h
    simp [execute_action, hstat]
  · simp only [Bool.not_eq_true] at hstat
    cases hself : a._self with
    | none => simp [receiverResolved, hstat, hself] at h
    | some p =>
        cases hget : Store.get_object store p.id_at_location with
        | none => simp [receiverResolved, hstat, hself, hget] at h
        | some rs =>
            simp only [receiverResolved, hstat, hself, hget, Bool.false_eq_true,
              if_false, Option.some.injEq] at h
            subst h
            simp [execute_action, hstat, hself, hget]

theorem resolveArgObjs_ok_perms (store : Store) (perms : AccessSet)
    (ps : List Pointer) (out : AccessSet) (os : List StorableObject)
    (h : resolveArgObjs store perms ps = Except.ok (out, os)) :
    out = List.foldl intersect_keys perms
      (os.map (fun r => r.read_permissions)) := by
  induction ps generalizing perms os with
  | nil =>
      simp only [resolveArgObjs, Except.ok.injEq, Prod.mk.injEq] at h
      obtain ⟨h1, h2⟩ := h
      subst h1
      subst h2
      simp
  | cons q rest ih =>
      simp only [resolveArgObjs] at h
      cases hq : Store.getItem store q.id_at_location with
      | none =>
          simp only [hq] at h
          exact Except.noConfusion h
      | some r =>
          simp only [hq] at h
          cases hrec : resolveArgObjs store
              (intersect_keys perms r.read_permissions) rest with
          | error e =>
              simp only [hrec] at h
              exact Except.noConfusion h
          | ok pr =>
              obtain ⟨out2, os2⟩ := pr
              simp only [hrec, Except.ok.injEq, Prod.mk.injEq] at h
              obtain ⟨h1, h2⟩ := h
              subst h1
              subst h2
              simpa using ih _ _ hrec

theorem resolveKwargObjs_ok_perms (store : Store) (perms : AccessSet)
    (ps : List (String × Pointer)) (out : AccessSet)
    (os : List (String × StorableObject))
    (h : resolveKwargObjs store perms ps = Except.ok (out, os)) :
    out = List.foldl intersect_keys perms
      (os.map (fun kv => kv.2.read_permissions)) := by
  induction ps generalizing perms os with
  | nil =>
      simp only [resolveKwargObjs, Except.ok.injEq, Prod.mk.injEq] at h
      obtain ⟨h1, h2⟩ := h
      subst h1
      subst h2
      simp
  | cons nq rest ih =>
      obtain ⟨name, q⟩ := nq
      simp only [resolveKwargObjs] at h
      cases hq : Store.getItem store q.id_at_location with
      | none =>
          simp only [hq] at h
          exact Except.noConfusion h
      | some r =>
          simp only [hq] at h
          cases hrec : resolveKwargObjs store
              (intersect_keys perms r.read_permissions) rest with
          | error e =>
              simp only [hrec] at h
              exact Except.noConfusion h
          | ok pr =>
              obtain ⟨out2, os2⟩ := pr
              simp only [hrec, Except.ok.injEq, Prod.mk.injEq] at h
              obtain ⟨h1, h2⟩ := h
              subst h1
              subst h2
              simpa using ih _ _ hrec

theorem resolveArgObjs_error_shape (store : Store) (perms : AccessSet)
    (ps : List Pointer) (e : ExecError)
    (h : resolveArgObjs store perms ps = Except.error e) :
    ∃ k, e = ExecError.keyError k := by
  induction ps generalizing perms with
  | nil => simp [resolveArgObjs] at h
  | cons q rest ih =>
      simp only [resolveArgObjs] at h
      cases hq : Store.getItem store q.id_at_location with
      | none =>
          simp only [hq, Except.error.injEq] at h
          exact ⟨q.id_at_location, h.symm⟩
      | some r =>
          simp only [hq] at h
          cases hrec : resolveArgObjs store
              (intersect_keys perms r.read_permissions) rest with
          | error e2 =>
              simp only [hrec, Except.error.injEq] at h
              subst h
              exact ih _ hrec
          | ok pr =>
              simp only [hrec] at h
              exact Except.noConfusion h

theorem resolveKwargObjs_error_shape (store : Store) (perms : AccessSet)
    (ps : List (String × Pointer)) (e : ExecError)
    (h : resolveKwargObjs store perms ps = Except.error e) :
    ∃ k, e = ExecError.keyError k := by
  induction ps generalizing perms with
  | nil => simp [resolveKwargObjs] at h
  | cons nq rest ih =>
      obtain ⟨name, q⟩ := nq
      simp only [resolveKwargObjs] at h
      cases hq : Store.getItem store q.id_at_location with
      | none =>
          simp only [hq, Except.error.injEq] at h
          exact ⟨q.id_at_location, h.symm⟩
      | some r =>
          simp only [hq] at h
          cases hrec : resolveKwargObjs store
              (intersect_keys perms r.read_permissions) rest with
          | error e2 =>
              simp only [hrec, Except.error.injEq] at h
              subst h
              exact ih _ hrec
          | ok pr =>
              simp only [hrec] at h
              exact Except.noConfusion h

theorem resolveArgObjs_missing (store : Store) (perms : AccessSet)
    (ps : List Pointer)
    (h : ∃ q ∈ ps, Store.getItem store q.id_at_location = none) :
    ∃ e, resolveArgObjs store perms ps = Except.error e := by
  induction ps generalizing perms with
  | nil => simp at h
  | cons q rest ih =>
      cases hq : Store.getItem store q.id_at_location with
      | none => exact ⟨ExecError.keyError q.id_at_location,
          by simp only [resolveArgObjs, hq]⟩
      | some r =>
          obtain ⟨q0, hq0mem, hq0⟩ := h
          rcases List.mem_cons.mp hq0mem with hh | hh
          · subst hh
            rw [hq] at hq0
            exact absurd hq0 (by simp)
          · obtain ⟨e, he⟩ :=
              ih (intersect_keys perms r.read_permissions) ⟨q0, hh, hq0⟩
            exact ⟨e, by simp only [resolveArgObjs, hq, he]⟩

theorem resolveKwargObjs_missing (store : Store) (perms : AccessSet)
    (ps : List (String × Pointer))
    (h : ∃ nq ∈ ps, Store.getItem store nq.2.id_at_location = none) :
    ∃ e, resolveKwargObjs store perms ps = Except.error e := by
  induction ps generalizing perms with
  | nil => simp at h
  | cons nq rest ih =>
      obtain ⟨name, q⟩ := nq
      cases hq : Store.getItem store q.id_at_location with
      | none => exact ⟨ExecError.keyError q.id_at_location,
          by simp only [resolveKwargObjs, hq]⟩
      | some r =>
          obtain ⟨q0, hq0mem, hq0⟩ := h
          rcases List.mem_cons.mp hq0mem with hh | hh
          · subst hh
            simp only at hq0
            rw [hq] at hq0
            exact absurd hq0 (by simp)
          · obtain ⟨e, he⟩ :=
              ih (intersect_keys perms r.read_permissions) ⟨q0, hh, hq0⟩
            exact ⟨e, by simp only [resolveKwargObjs, hq, he]⟩

theorem execute_resolved_ok
    (invoke : Option Data → List Data → List (String × Data) → Data)
    (a : Action) (store : Store) (rself : Option (Pointer × StorableObject))
    (permsA F : AccessSet) (os : List StorableObject)
    (oks : List (String × StorableObject))
    (ha : resolveArgObjs store (seedPerms rself) a.args =
      Except.ok (permsA, os))
    (hk : resolveKwargObjs store permsA a.kwargs = Except.ok (F, oks)) :
    execute_resolved invoke a store rself =
      Except.ok (Store.set
        (if mutatingInternal a.path then mutatedStore store rself F
         else store)
        a.id_at_location
        { id := a.id_at_location
          data := invoke (rself.map (fun sr => sr.2.data))
            (os.map (fun r => r.data))
            (oks.map (fun kv => (kv.1, kv.2.data)))
          read_permissions := F }) := by
  unfold execute_resolved mutatedStore
  simp only [ha, hk]

/-- Claim C1 (amended): a static Action whose two positional arguments are
present with Access Sets over keys P1 and P1,P2 executes without error and
stores under the destination identifier a result whose Access Set is EMPTY:
the static seed is the empty set, and intersecting anything with the empty
set stays empty. -/
theorem c1_static_empty_permissions
    (invoke : Option Data → List Data → List (String × Data) → Data)
    (a : Action) (store : Store) (q1 q2 : Pointer) (o1 o2 : StorableObject)
    (P1 P2 r1 r2 r3 : Nat)
    (hstatic : a.is_static = true)
    (hargs : a.args = [q1, q2]) (hkw : a.kwargs = [])
    (h1 : Store.getItem store q1.id_at_location = some o1)
    (h2 : Store.getItem store q2.id_at_location = some o2)
    (hp1 : o1.read_permissions = [(P1, r1)])
    (hp2 : o2.read_permissions = [(P1, r2), (P2, r3)]) :
    ∃ s2, execute_action invoke a store = Except.ok s2 ∧
      ∃ res, Store.get_object s2 a.id_at_location = some res ∧
        res.read_permissions = [] := by
  have hr : receiverResolved a store = some none := by
    simp [receiverResolved, hstatic]
  have ha : resolveArgObjs store (seedPerms none) a.args =
      Except.ok ([], [o1, o2]) := by
    simp [hargs, resolveArgObjs, h1, h2, seedPerms, intersect_keys_nil_left]
  have hk : resolveKwargObjs store [] a.kwargs = Except.ok ([], []) := by
    simp [hkw, resolveKwargObjs]
  rw [execute_action_eq_resolved invoke a store none hr,
    execute_resolved_ok invoke a store none [] [] [o1, o2] [] ha hk]
  exact ⟨_, rfl, _, Store.get_object_set_self _ _ _, rfl⟩

/-- Witness for C1: the static Action `actC1` against `storeC1`, whose two
arguments carry Access Sets over keys 1 and 1,2. -/
theorem c1_static_empty_permissions_witness :
    (execute_action inv0 actC1 storeC1).map (fun s =>
      (Store.get_object s 99).map (fun r => r.read_permissions)) =
      Except.ok (some []) := by
  obtain ⟨s2, hs, res, hres, hperm⟩ :=
    c1_static_empty_permissions inv0 actC1 storeC1 ⟨1⟩ ⟨2⟩ objP1 objP1P2
      1 2 10 11 12 rfl rfl rfl rfl rfl rfl rfl
  have hres2 : Store.get_object s2 99 = some res := hres
  rw [hs]
  simp only [Except.map, hres2]
  simp [hperm]

/-- Claim C1 counterexample: on the concrete static Action `actC1` with
argument Access Sets over keys 1 and 1,2, the stored result's Access Set is
the empty set, and key 1 (the claimed sole member) is not in it. -/
theorem c1_counterexample :
    (execute_action inv0 actC1 storeC1).map (fun s =>
      (Store.get_object s 99).map (fun r => r.read_permissions)) =
      Except.ok (some []) ∧
    ¬ ((1 : VerifyKey) ∈ AccessSet.keys []) := by
  exact ⟨rfl, by simp [AccessSet.keys]⟩

/-- Claim C4: whenever the receiver (or static seed) and every argument
resolve, execution succeeds and the stored result's Access Set is the
left-to-right fold of `intersect_keys` over the seed, then the positional
arguments' Access Sets in order, then the named arguments' Access Sets in
insertion order. -/
theorem c4_folded_permissions
    (invoke : Option Data → List Data → List (String × Data) → Data)
    (a : Action) (store : Store) (rself : Option (Pointer × StorableObject))
    (permsA F : AccessSet) (os : List StorableObject)
    (oks : List (String × StorableObject))
    (hr : receiverResolved a store = some rself)
    (ha : resolveArgObjs store (seedPerms rself) a.args =
      Except.ok (permsA, os))
    (hk : resolveKwargObjs store permsA a.kwargs = Except.ok (F, oks)) :
    ∃ s2, execute_action invoke a store = Except.ok s2 ∧
      ∃ res, Store.get_object s2 a.id_at_location = some res ∧
        res.read_permissions =
          foldedPermissions (seedPerms rself)
            (os.map (fun r => r.read_permissions) ++
              oks.map (fun kv => kv.2.read_permissions)) := by
  rw [execute_action_eq_resolved invoke a store rself hr,
    execute_resolved_ok invoke a store rself permsA F os oks ha hk]
  refine ⟨_, rfl, _, Store.get_object_set_self _ _ _, ?_⟩
  have e1 := resolveArgObjs_ok_perms store (seedPerms rself) a.args permsA os ha
  have e2 := resolveKwargObjs_ok_perms store permsA a.kwargs F oks hk
  rw [foldedPermissions, List.foldl_append, ← e1, ← e2]

/-- Witness for C4: the non-static Action `actC9` against `storeC9`; the fold
of the receiver's Access Set with the argument's gives the key-1 entry with
the receiver's marker. -/
theorem c4_folded_permissions_witness :
    (execute_action inv0 actC9 storeC9).map (fun s =>
      (Store.get_object s 99).map (fun r => r.read_permissions)) =
      Except.ok (some (foldedPermissions [(1, 11), (2, 12)] [[(1, 10)]])) := by
  obtain ⟨s2, hs, res, hres, hperm⟩ :=
    c4_folded_permissions inv0 actC9 storeC9 (some (⟨4⟩, recvObj))
      [(1, 11)] [(1, 11)] [objP1] [] rfl rfl rfl
  have hres2 : Store.get_object s2 99 = some res := hres
  rw [hs]
  simp only [Except.map, hres2]
  simp only [Option.map]
  rw [hperm]
  rfl

/-- Claim C8 (amended): provided execution reaches argument resolution (the
call is static, or its receiver reference is present and resolves), an
Action with a positional or named argument absent from the Object Store
makes `execute_action` surface a `KeyError`; no store write happens, as the
error is raised before any mutation. -/
theorem c8_missing_argument
    (invoke : Option Data → List Data → List (String × Data) → Data)
    (a : Action) (store : Store) (rself : Option (Pointer × StorableObject))
    (hr : receiverResolved a store = some rself)
    (hmiss : (∃ q ∈ a.args, Store.getItem store q.id_at_location = none) ∨
             (∃ nq ∈ a.kwargs, Store.getItem store nq.2.id_at_location = none)) :
    ∃ k, execute_action invoke a store =
      Except.error (ExecError.keyError k) := by
  rw [execute_action_eq_resolved invoke a store rself hr]
  unfold execute_resolved
  rcases hmiss with hA | hK
  · obtain ⟨e, he⟩ := resolveArgObjs_missing store (seedPerms rself) a.args hA
    obtain ⟨k, rfl⟩ := resolveArgObjs_error_shape _ _ _ _ he
    exact ⟨k, by simp only [he]⟩
  · cases hres : resolveArgObjs store (seedPerms rself) a.args with
    | error e =>
        obtain ⟨k, rfl⟩ := resolveArgObjs_error_shape _ _ _ _ hres
        exact ⟨k, by simp only [hres]⟩
    | ok pr =>
        obtain ⟨permsA, os⟩ := pr
        obtain ⟨e, he⟩ := resolveKwargObjs_missing store permsA a.kwargs hK
        obtain ⟨k, rfl⟩ := resolveKwargObjs_error_shape _ _ _ _ he
        exact ⟨k, by simp only [hres, he]⟩

/-- Witness for C8: the static Action `actC8w` whose sole argument (id 1) is
absent from the empty store surfaces `KeyError 1`. -/
theorem c8_missing_argument_witness :
    execute_action inv0 actC8w [] =
      Except.error (ExecError.keyError 1) := by
  obtain ⟨k, hk⟩ := c8_missing_argument inv0 actC8w [] none rfl
    (Or.inl ⟨⟨1⟩, by decide, rfl⟩)
  exact hk.trans (hk.symm.trans rfl)

/-- Claim C8 counterexample: the non-static Action `actC8` has its argument
(id 1) absent from the empty store, yet `execute_action` raises nothing — the
missing RECEIVER is detected first and aborts silently with `Except.ok`. -/
theorem c8_counterexample :
    Store.getItem ([] : Store) 1 = none ∧
    execute_action inv0 actC8 [] = Except.ok [] :=
  ⟨rfl, rfl⟩

/-- Claim C9: when the receiver resolves and all arguments resolve with
folded Access Set F, a mutating call overwrites the receiver's store entry
Access Set to F in place and the destination entry also carries F (they may
be the same entry); a non-mutating call leaves the receiver's entry — with
its Access Set — unchanged (destination distinct from the receiver). -/
theorem c9_mutating_receiver_permissions
    (invoke : Option Data → List Data → List (String × Data) → Data)
    (a : Action) (store : Store) (p : Pointer) (rs : StorableObject)
    (permsA F : AccessSet) (os : List StorableObject)
    (oks : List (String × StorableObject))
    (hstatic : a.is_static = false) (hself : a._self = some p)
    (hrecv : Store.get_object store p.id_at_location = some rs)
    (ha : resolveArgObjs store rs.read_permissions a.args =
      Except.ok (permsA, os))
    (hk : resolveKwargObjs store permsA a.kwargs = Except.ok (F, oks)) :
    (mutatingInternal a.path = true →
      ∃ s2, execute_action invoke a store = Except.ok s2 ∧
        (Store.get_object s2 p.id_at_location).map
          (fun r => r.read_permissions) = some F ∧
        (Store.get_object s2 a.id_at_location).map
          (fun r => r.read_permissions) = some F) ∧
    (mutatingInternal a.path = false →
      p.id_at_location ≠ a.id_at_location →
      ∃ s2, execute_action invoke a store = Except.ok s2 ∧
        Store.get_object s2 p.id_at_location = some rs ∧
        (Store.get_object s2 a.id_at_location).map
          (fun r => r.read_permissions) = some F) := by
  have hr : receiverResolved a store = some (some (p, rs)) := by
    simp [receiverResolved, hstatic, hself, hrecv]
  have ha2 : resolveArgObjs store (seedPerms (some (p, rs))) a.args =
      Except.ok (permsA, os) := ha
  have hmain := execute_action_eq_resolved invoke a store (some (p, rs)) hr
  rw [execute_resolved_ok invoke a store (some (p, rs)) permsA F os oks
    ha2 hk] at hmain
  constructor
  · intro hm
    rw [hmain]
    simp only [hm, if_true, mutatedStore]
    refine ⟨_, rfl, ?_, ?_⟩
    · by_cases hpd : p.id_at_location = a.id_at_location
      · rw [hpd, Store.get_object_set_self]
        rfl
      · rw [Store.get_object_set_other _ _ _ _ hpd,
          Store.get_object_set_self]
        rfl
    · rw [Store.get_object_set_self]
      rfl
  · intro hm hne
    rw [hmain]
    simp only [hm, Bool.false_eq_true, if_false]
    refine ⟨_, rfl, ?_, ?_⟩
    · rw [Store.get_object_set_other _ _ _ _ hne]
      exact hrecv
    · rw [Store.get_object_set_self]
      rfl

/-- Witness for C9: the mutating call `actC9` (path torch.Tensor.add_) on a
receiver with Access Set over keys 1,2 and an argument over key 1: both the
receiver's entry and the destination entry end with the folded Access Set. -/
theorem c9_mutating_receiver_permissions_witness :
    (execute_action inv0 actC9 storeC9).map (fun s =>
      ((Store.get_object s 4).map (fun r => r.read_permissions),
       (Store.get_object s 99).map (fun r => r.read_permissions))) =
      Except.ok (some [(1, 11)], some [(1, 11)]) := by
  obtain ⟨s2, hs, h4, h99⟩ :=
    (c9_mutating_receiver_permissions inv0 actC9 storeC9 ⟨4⟩ recvObj
      [(1, 11)] [(1, 11)] [objP1] [] rfl rfl rfl rfl rfl).1 rfl
  have h4b : (Store.get_object s2 4).map
    (fun r => r.read_permissions) = some [(1, 11)] := h4
  have h99b : (Store.get_object s2 99).map
    (fun r => r.read_permissions) = some [(1, 11)] := h99
  rw [hs]
  simp only [Except.map, h4b, h99b]

end Syft
